import Mathlib

/-!
Shallow embedding of the Salesforce/Profinder account-enrichment app
(src/app.py): the field-path value resolver and update-payload builder
inside `enrich_data`, the missing-data selector
`fetch_accounts_with_missing_data`, the person-disambiguation step
`show_person_selector`, and the enrichment-session state transitions
(first pass, apply pass, cancel).
-/

namespace SFE

/-- Scalar JSON-ish value occurring in provider responses and CRM records.
A JSON `null` is modelled as absence of the key: every access in the
source goes through `dict.get`, which returns `None` for both. -/
inductive PVal where
  | str (s : String)
  | int (n : Int)
  | bool (b : Bool)
deriving DecidableEq, Repr

/-- Python truthiness of a present scalar value. -/
def PVal.truthy : PVal → Bool
  | .str s => s != ""
  | .int n => n != 0
  | .bool b => b

/-- `dict.get k` over an association list (keys unique: first binding wins). -/
def alookup {α : Type} : List (String × α) → String → Option α
  | [], _ => none
  | (k, v) :: rest, key => if k = key then some v else alookup rest key

/-- Python dict assignment `d[k] = v`: replace in place, or append. -/
def setKey {α : Type} : List (String × α) → String → α → List (String × α)
  | [], k, v => [(k, v)]
  | (k0, v0) :: rest, k, v =>
    if k0 = k then (k, v) :: rest else (k0, v0) :: setKey rest k v

/-- One person document from the provider's `people` list. The source
indexes `p['fullName']` and `p['title']` directly, so those two keys are
always present; any further keys live in `extra`. -/
structure Person where
  fullName : String
  title : String
  extra : List (String × PVal)
deriving DecidableEq, Repr

/-- `person.get(k)` for a person document. -/
def Person.get (p : Person) (k : String) : Option PVal :=
  if k = "fullName" then some (.str p.fullName)
  else if k = "title" then some (.str p.title)
  else alookup p.extra k

/-- An External Company Record: the provider JSON for one VAT lookup.
Absent sections are modelled as empty collections — the source reads them
with `data.get('people', [])` or guards with `if data.get('financials'):`,
which treat a missing key and an empty collection identically. -/
structure CompanyData where
  success : Bool
  basic : List (String × PVal)
  financials : List (String × List (String × PVal))
  offices : List (List (String × PVal))
  people : List Person
  eAddresses : List (List (String × PVal))
deriving DecidableEq, Repr

/-- Split a character list at its first `'.'`; `none` when there is none.
This is Python `s.split('.', 1)` with `none` standing for a length-1
result (the `len(parts) != 2` guard). -/
def breakAtDot : List Char → Option (List Char × List Char)
  | [] => none
  | c :: cs =>
    if c = '.' then some ([], cs)
    else (breakAtDot cs).map (fun q => (c :: q.1, q.2))

/-- Python `path.split('.', 1)` as the pair of parts, `none` if no dot. -/
def splitPath (s : String) : Option (String × String) :=
  (breakAtDot s.data).map (fun q => (⟨q.1⟩, ⟨q.2⟩))

/-- Python `s.split('.')[1]`: the token between the first and second dot.
Every caller in the source first checks a `startswith` guard that
guarantees a dot exists; without one the real code would raise an
IndexError swallowed by the enclosing handler, modelled as `""`. -/
def secondTok (s : String) : String :=
  match breakAtDot s.data with
  | none => ""
  | some q =>
    match breakAtDot q.2 with
    | none => ⟨q.2⟩
    | some r => ⟨r.1⟩

/-- Python `s.startswith(pre)`. -/
def strStartsWith (s pre : String) : Bool := pre.data.isPrefixOf s.data

/-- Accumulate the value of a decimal digit string; `none` on the first
non-digit (Python `int` raises `ValueError` there). -/
def digitsValAux : List Char → Nat → Option Nat
  | [], acc => some acc
  | c :: cs, acc =>
    if '0' ≤ c ∧ c ≤ '9' then digitsValAux cs (acc * 10 + (c.toNat - 48)) else none

/-- Python `int(s)` on a financials year key — a decimal string with an
optional leading minus sign; `none` models `ValueError`. -/
def pyInt (s : String) : Option Int :=
  match s.data with
  | [] => none
  | '-' :: cs =>
    match cs with
    | [] => none
    | _ => (digitsValAux cs 0).map (fun n => -(n : Int))
  | cs => (digitsValAux cs 0).map (fun n => (n : Int))

/-- `(pyInt s).getD 0`, the integer value of a key known to parse. -/
def yearVal (s : String) : Int := (pyInt s).getD 0

/-- One comparison step of Python `max(keys, key=int)`: keep the earlier
key on ties, as `max` does. -/
def maxStep (best c : String) : String :=
  if yearVal best < yearVal c then c else best

/-- Python `max(keys, key=int)`: the first key of numerically greatest
integer value. `none` models the exceptions (empty sequence, unparsable
key), which the caller's `try/except` turns into a skipped field. -/
def maxYearKey (keys : List String) : Option String :=
  if keys.all (fun k => (pyInt k).isSome) then
    match keys with
    | [] => none
    | k :: ks => some (ks.foldl maxStep k)
  else none

/-- The per-(account, field) widget key `f"{account_id}_{sf_field}"`. -/
def selKey (account_id sf_field : String) : String :=
  account_id ++ "_" ++ sf_field

/-- Value resolution for one mapped field: the per-field body of the
update loop in `enrich_data` (src/app.py lines 443–473).
`selected_people` is the Person Selection store keyed by `selKey`. -/
def resolve_value (selected_people : List (String × Person)) (account_id sf_field : String)
    (data : CompanyData) (profinder_path : String) : Option PVal :=
  match splitPath profinder_path with
  | none => none
  | some parts =>
    let category := parts.1
    let field_path := parts.2
    if category = "people" then
      if field_path = "count" then some (.int (data.people.length : Int))
      else if strStartsWith field_path "ceo." then
        match alookup selected_people (selKey account_id sf_field) with
        | some person => person.get (secondTok field_path)
        | none => none
      else none
    else if category = "basic" then alookup data.basic field_path
    else if category = "financials" then
      if strStartsWith field_path "latest." then
        if data.financials.isEmpty then none
        else
          match maxYearKey (data.financials.map Prod.fst) with
          | some latest_year =>
            match alookup data.financials latest_year with
            | some year_data => alookup year_data (secondTok field_path)
            | none => none
          | none => none
      else none
    else if category = "offices" then
      if strStartsWith field_path "first." then
        match data.offices with
        | [] => none
        | o :: _ => alookup o (secondTok field_path)
      else none
    else if category = "eAddresses" then
      if strStartsWith field_path "first." then
        match data.eAddresses with
        | [] => none
        | e :: _ => alookup e (secondTok field_path)
      else none
    else none

/-- The Update Payload construction of `enrich_data` (src/app.py lines
436–476): iterate the field mappings, skip fields outside the selected
set, and record a field exactly when its resolved value is not `None`. -/
def build_update_data (field_mappings : List (String × String)) (selected_fields : List String)
    (selected_people : List (String × Person)) (account_id : String) (data : CompanyData) :
    List (String × PVal) :=
  field_mappings.filterMap (fun m =>
    if m.1 ∈ selected_fields then
      (resolve_value selected_people account_id m.1 data m.2).map (fun v => (m.1, v))
    else none)

/-- A record returned by the SOQL query in `fetch_accounts_with_missing_data`
(src/app.py lines 267–271): its `Id` plus a sparse attribute dict. -/
structure QueryRecord where
  id : String
  attrs : List (String × PVal)
deriving DecidableEq, Repr

/-- `account.get(field)`. -/
def QueryRecord.getA (r : QueryRecord) (f : String) : Option PVal :=
  alookup r.attrs f

/-- Python truthiness of `account.get(field)` (`None` is falsy). -/
def optTruthy : Option PVal → Bool
  | none => false
  | some v => v.truthy

/-- One output row of the Missing-Data Selector
(src/app.py lines 280–285). -/
structure MissingEntry where
  id : String
  name : PVal
  vat : PVal
  missing : List String
deriving DecidableEq, Repr

/-- The list comprehension of src/app.py lines 275–278: the selected
fields whose value on the record is absent or falsy. -/
def missingFields (selected_fields : List String) (r : QueryRecord) : List String :=
  selected_fields.filter (fun f => !(optTruthy (r.getA f)))

/-- The Missing-Data Selector `fetch_accounts_with_missing_data`
(src/app.py lines 263–287), as a function of the fields of interest and
the records the SOQL query returned. -/
def fetch_accounts_with_missing_data (selected_fields : List String)
    (records : List QueryRecord) : List MissingEntry :=
  if selected_fields.isEmpty then []
  else
    records.filterMap (fun r =>
      if (missingFields selected_fields r).isEmpty then none
      else some ⟨r.id, (r.getA "Name").getD (.str ""),
                 (r.getA "VatNumber__c").getD (.str ""), missingFields selected_fields r⟩)

/-- Python `str.lower()`, character-wise (kernel-friendly spelling of
`String.toLower`). -/
def strLower (s : String) : String := ⟨s.data.map Char.toLower⟩

/-- Automatic CEO detection of `show_person_selector`
(src/app.py line 309): the first person whose lowercased title is the
Finnish term for managing director. -/
def find_ceo (people_data : List Person) : Option Person :=
  people_data.find? (fun p => strLower p.title == "toimitusjohtaja")

/-- `show_person_selector` (src/app.py lines 301–346) as a function of
the current Person Selection store `sel`, the `show_apply_button` flag
`btn`, and the operator's widget state: `pick` is the index shown by the
fallback selectbox (its default-index logic only determines which index
the widget holds, so an arbitrary index input subsumes it).
Returns the new store, the new flag, and the boolean the function
returns (selection made). -/
def show_person_selector (sel : List (String × Person)) (btn : Bool)
    (account_id sf_field : String) (people_data : List Person) (pick : Nat) :
    List (String × Person) × Bool × Bool :=
  let key := selKey account_id sf_field
  match find_ceo people_data with
  | some ceo => (setKey sel key ceo, true, true)
  | none =>
    match (people_data.map (fun p => p.fullName)).get? pick with
    | some selected_name =>
      if selected_name = "" then (sel, btn, false)
      else
        match people_data.find? (fun p => p.fullName == selected_name) with
        | some person => (setKey sel key person, true, true)
        | none => (sel, btn, false)
    | none => (sel, btn, false)

/-- Whether `show_person_selector` reports a completed selection, as a
function of the people list and the widget index alone (the outcome does
not depend on the stores it threads through). -/
def selectorMade (people_data : List Person) (pick : Nat) : Bool :=
  match find_ceo people_data with
  | some _ => true
  | none =>
    match (people_data.map (fun p => p.fullName)).get? pick with
    | some selected_name =>
      if selected_name = "" then false
      else (people_data.find? (fun p => p.fullName == selected_name)).isSome
    | none => false

/-- The cached fetch stored in `person_selection_state[account_id]`
(src/app.py lines 386–390). -/
structure FetchedEntry where
  people_data : List Person
  account_name : String
  data : CompanyData
deriving DecidableEq, Repr

/-- The fields of a Salesforce account record that `enrich_data` reads
(`account['Name']`, `account.get('VatNumber__c')`). -/
structure SFAccount where
  name : String
  vat : Option String
deriving DecidableEq, Repr

/-- Python truthiness of `account.get('VatNumber__c')`. -/
def vatTruthy : Option String → Bool
  | none => false
  | some v => v != ""

/-- The session-state fields that `enrich_data` owns
(src/app.py lines 351–360 and 494–499). -/
structure SessionState where
  enrichment_started : Bool
  person_selection_state : List (String × FetchedEntry)
  selected_people : List (String × Person)
  show_apply_button : Bool
  selected_accounts : List String
deriving DecidableEq, Repr

/-- The mutable state threaded through the first pass of `enrich_data`
(src/app.py lines 362–414): the fetch cache, the Person Selection store,
the `show_apply_button` flag, the two loop-local booleans, and the logs. -/
structure PassState where
  pss : List (String × FetchedEntry)
  sel : List (String × Person)
  btn : Bool
  needed : Bool
  allComplete : Bool
  logs : List String
deriving DecidableEq, Repr

/-- The per-mapping body of the first-pass field loop
(src/app.py lines 395–414). -/
def fieldStep (selected_fields : List String) (picks : String → Nat)
    (account_id : String) (people_data : List Person)
    (s : PassState) (m : String × String) : PassState :=
  if m.1 ∈ selected_fields then
    match splitPath m.2 with
    | none => s
    | some parts =>
      if parts.1 = "people" && strStartsWith parts.2 "ceo." then
        let r := show_person_selector s.sel s.btn account_id m.1 people_data
          (picks (selKey account_id m.1))
        { s with sel := r.1, btn := r.2.1, needed := true,
                 allComplete := s.allComplete && r.2.2 }
      else s
  else s

/-- The per-account body of the first pass (src/app.py lines 371–414):
read the account, skip on a falsy VAT number, fetch-and-cache the
provider data if not cached (skipping on failure or `success: false`),
then run the field loop over the cached people list. -/
def processAccount (sfGet : String → SFAccount) (profind : String → Option CompanyData)
    (field_mappings : List (String × String)) (selected_fields : List String)
    (picks : String → Nat) (s : PassState) (account_id : String) : PassState :=
  match (sfGet account_id).vat with
  | none =>
    { s with logs := s.logs ++
        ["No VAT number found for account " ++ (sfGet account_id).name] }
  | some v =>
    if v = "" then
      { s with logs := s.logs ++
          ["No VAT number found for account " ++ (sfGet account_id).name] }
    else
      match alookup s.pss account_id with
      | some entry =>
        field_mappings.foldl (fieldStep selected_fields picks account_id entry.people_data) s
      | none =>
        match profind v with
        | none =>
          { s with logs := s.logs ++
              ["Failed to fetch data for account " ++ (sfGet account_id).name] }
        | some d =>
          if d.success then
            field_mappings.foldl
              (fieldStep selected_fields picks account_id d.people)
              { s with pss := setKey s.pss account_id ⟨d.people, (sfGet account_id).name, d⟩ }
          else
            { s with logs := s.logs ++
                ["Failed to fetch data for account " ++ (sfGet account_id).name] }

/-- The whole first pass of `enrich_data` over the session's account
list, starting from the stored session state with
`person_selection_needed = False` and `all_selections_complete = True`
(src/app.py lines 363–414). -/
def firstPass (sfGet : String → SFAccount) (profind : String → Option CompanyData)
    (field_mappings : List (String × String)) (selected_fields : List String)
    (picks : String → Nat) (st : SessionState) : PassState :=
  st.selected_accounts.foldl
    (processAccount sfGet profind field_mappings selected_fields picks)
    ⟨st.person_selection_state, st.selected_people, st.show_apply_button, false, true, []⟩

/-- The condition under which the Apply Enrichment button is rendered
after the first pass (src/app.py line 420). -/
def applyOffered (s : PassState) : Bool :=
  !s.needed || (s.needed && s.allComplete && s.btn)

/-- The destination fields whose mapping is in scope and points at a
`people.ceo.*` path — exactly those for which the field loop invokes the
person selector. -/
def ceoFields (field_mappings : List (String × String))
    (selected_fields : List String) : List String :=
  field_mappings.filterMap (fun m =>
    if m.1 ∈ selected_fields then
      match splitPath m.2 with
      | none => none
      | some parts =>
        if parts.1 = "people" && strStartsWith parts.2 "ceo." then some m.1 else none
    else none)

/-- The cached fetch an account ends up with during a pass that starts
from cache `pss0`: the stored entry if already cached, otherwise the
result of a successful fetch; `none` when the account is skipped
(falsy VAT, fetch failure, `success: false`). -/
def accountEntry (pss0 : List (String × FetchedEntry)) (sfGet : String → SFAccount)
    (profind : String → Option CompanyData) (account_id : String) : Option FetchedEntry :=
  match (sfGet account_id).vat with
  | none => none
  | some v =>
    if v = "" then none
    else
      match alookup pss0 account_id with
      | some entry => some entry
      | none =>
        match profind v with
        | none => none
        | some d => if d.success then some ⟨d.people, (sfGet account_id).name, d⟩ else none

/-- All selector invocations for one account report a completed
selection (vacuously true for skipped accounts). -/
def madeAll (pss0 : List (String × FetchedEntry)) (sfGet : String → SFAccount)
    (profind : String → Option CompanyData) (field_mappings : List (String × String))
    (selected_fields : List String) (picks : String → Nat) (account_id : String) : Bool :=
  match accountEntry pss0 sfGet profind account_id with
  | none => true
  | some e =>
    (ceoFields field_mappings selected_fields).all
      (fun f => selectorMade e.people_data (picks (selKey account_id f)))

/-- Some selector invocation for this account reports a completed
selection. -/
def madeAny (pss0 : List (String × FetchedEntry)) (sfGet : String → SFAccount)
    (profind : String → Option CompanyData) (field_mappings : List (String × String))
    (selected_fields : List String) (picks : String → Nat) (account_id : String) : Bool :=
  match accountEntry pss0 sfGet profind account_id with
  | none => false
  | some e =>
    (ceoFields field_mappings selected_fields).any
      (fun f => selectorMade e.people_data (picks (selKey account_id f)))

/-- Invariant of the first pass relative to the cache `pss0` the pass
started with: every cache binding is either untouched or the
successful-fetch entry of an account that was not cached before. -/
def PssInv (pss0 : List (String × FetchedEntry)) (sfGet : String → SFAccount)
    (profind : String → Option CompanyData) (pss : List (String × FetchedEntry)) : Prop :=
  ∀ a : String, alookup pss a = alookup pss0 a ∨
    (alookup pss0 a = none ∧ alookup pss a = accountEntry pss0 sfGet profind a)

/-- The per-account body of the apply pass of `enrich_data`
(src/app.py lines 428–492), accumulating the log lines and the update
calls issued to the CRM. `updOk` gives each `Account.update` call's
outcome (an exception is `false`). -/
def applyRecord (sfGet : String → SFAccount)
    (updOk : String → List (String × PVal) → Bool)
    (field_mappings : List (String × String)) (selected_fields : List String)
    (pss : List (String × FetchedEntry)) (sel : List (String × Person))
    (acc : List String × List (String × List (String × PVal))) (account_id : String) :
    List String × List (String × List (String × PVal)) :=
  let a := sfGet account_id
  match alookup pss account_id with
  | none => acc
  | some entry =>
    let update_data := build_update_data field_mappings selected_fields sel account_id entry.data
    if update_data.isEmpty then
      (acc.1 ++ ["No matching data found in Profinder for Account " ++ a.name], acc.2)
    else if updOk account_id update_data then
      (acc.1 ++ ["Updated Account Name " ++ a.name ++ " with data from Profinder."],
       acc.2 ++ [(account_id, update_data)])
    else
      (acc.1 ++ ["Error updating " ++ a.name], acc.2 ++ [(account_id, update_data)])

/-- The apply pass of `enrich_data` (src/app.py lines 427–499): process
every session account, then reset the session state unconditionally
(lines 494–499). Returns the new session state, the log lines, and the
CRM update calls attempted. -/
def applyPass (sfGet : String → SFAccount)
    (updOk : String → List (String × PVal) → Bool)
    (field_mappings : List (String × String)) (selected_fields : List String)
    (st : SessionState) :
    SessionState × List String × List (String × List (String × PVal)) :=
  let acc := st.selected_accounts.foldl
    (applyRecord sfGet updOk field_mappings selected_fields
      st.person_selection_state st.selected_people) ([], [])
  (⟨false, [], [], false, []⟩, acc.1, acc.2)

/-- The page-level state the cancel handler touches
(src/app.py lines 526–547): the `enrichment_in_progress` flag plus the
session stores. -/
structure AppState where
  enrichment_in_progress : Bool
  person_selection_state : List (String × FetchedEntry)
  selected_people : List (String × Person)
  show_apply_button : Bool
  selected_accounts : List String
deriving DecidableEq, Repr

/-- The "← Back" cancel handler (src/app.py lines 542–547): reset the
in-progress flag and the session stores; it issues no CRM call and
appends no log line, so the emitted logs and writes are empty. -/
def cancel_enrichment (s : AppState) :
    AppState × List String × List (String × List (String × PVal)) :=
  ({ s with enrichment_in_progress := false, person_selection_state := [],
            selected_people := [], show_apply_button := false }, [], [])

/-- A concrete provider response used to evaluate the theorems on
closed inputs: three financial years listed out of order, a CEO-titled
person listed last, and an explicitly blank email. -/
def sampleCompany : CompanyData :=
  ⟨true,
   [("name", .str "Acme"), ("email", .str ""), ("phoneNumber", .str "+358401234567")],
   [("2021", [("turnover", .int 10)]), ("2023", [("turnover", .int 30)]),
    ("2022", [("turnover", .int 20)])],
   [[("name", .str "HQ")]],
   [⟨"Alice", "CFO", []⟩, ⟨"Bob", "Toimitusjohtaja", []⟩],
   [[("id", .str "E1")]]⟩

/-! ## Plumbing lemmas -/

theorem breakAtDot_split (l1 l2 : List Char) (h : '.' ∉ l1) :
    breakAtDot (l1 ++ '.' :: l2) = some (l1, l2) := by
  induction l1 with
  | nil => simp [breakAtDot]
  | cons c cs ih =>
    have hc : c ≠ '.' := fun hc => h (hc ▸ List.mem_cons_self c cs)
    have hcs : '.' ∉ cs := fun hm => h (List.mem_cons_of_mem c hm)
    simp [breakAtDot, hc, ih hcs]

theorem breakAtDot_none (l : List Char) (h : '.' ∉ l) : breakAtDot l = none := by
  induction l with
  | nil => rfl
  | cons c cs ih =>
    have hc : c ≠ '.' := fun hc => h (hc ▸ List.mem_cons_self c cs)
    have hcs : '.' ∉ cs := fun hm => h (List.mem_cons_of_mem c hm)
    simp [breakAtDot, hc, ih hcs]

theorem string_data_append (s t : String) : (s ++ t).data = s.data ++ t.data := rfl

theorem splitPath_append (cat rest : String) (h : '.' ∉ cat.data) :
    splitPath (cat ++ "." ++ rest) = some (cat, rest) := by
  have hd : (cat ++ "." ++ rest).data = cat.data ++ '.' :: rest.data := by
    cases cat
    cases rest
    simp [string_data_append]
  unfold splitPath
  rw [hd, breakAtDot_split _ _ h]
  rfl

theorem splitPath_none (p : String) (h : '.' ∉ p.data) : splitPath p = none := by
  unfold splitPath
  rw [breakAtDot_none _ h]
  rfl

theorem secondTok_append (pre attr : String) (hpre : '.' ∉ pre.data)
    (hattr : '.' ∉ attr.data) : secondTok (pre ++ "." ++ attr) = attr := by
  have hd : (pre ++ "." ++ attr).data = pre.data ++ '.' :: attr.data := by
    cases pre
    cases attr
    simp [string_data_append]
  unfold secondTok
  rw [hd, breakAtDot_split _ _ hpre]
  dsimp only
  rw [breakAtDot_none _ hattr]

theorem isPrefixOf_append_self (l r : List Char) : l.isPrefixOf (l ++ r) = true := by
  induction l with
  | nil => simp [List.isPrefixOf]
  | cons c cs ih => simp [List.isPrefixOf, ih]

theorem strStartsWith_append (pre rest : String) :
    strStartsWith (pre ++ rest) pre = true := by
  unfold strStartsWith
  rw [string_data_append]
  exact isPrefixOf_append_self _ _

theorem alookup_setKey_self {α : Type} (m : List (String × α)) (k : String) (v : α) :
    alookup (setKey m k v) k = some v := by
  induction m with
  | nil => simp [setKey, alookup]
  | cons h0 rest ih =>
    by_cases hk : h0.1 = k
    · simp [setKey, if_pos hk, alookup]
    · simp only [setKey, if_neg hk, alookup, if_neg hk]
      exact ih

theorem alookup_setKey_ne {α : Type} (m : List (String × α)) (k k2 : String) (v : α)
    (h : k2 ≠ k) : alookup (setKey m k v) k2 = alookup m k2 := by
  have hk2 : ¬(k = k2) := fun hk => h hk.symm
  induction m with
  | nil =>
    simp only [setKey, alookup]
    rw [if_neg hk2]
  | cons h0 rest ih =>
    by_cases hk : h0.1 = k
    · simp only [setKey, if_pos hk, alookup]
      rw [if_neg hk2, if_neg (hk ▸ hk2)]
    · simp only [setKey, if_neg hk, alookup]
      by_cases h2 : h0.1 = k2
      · rw [if_pos h2, if_pos h2]
      · rw [if_neg h2, if_neg h2]
        exact ih

theorem alookup_setKey_isSome {α : Type} (m : List (String × α)) (k k2 : String) (v : α)
    (h : (alookup m k2).isSome) : (alookup (setKey m k v) k2).isSome := by
  by_cases hk : k2 = k
  · subst hk
    rw [alookup_setKey_self]
    rfl
  · rw [alookup_setKey_ne _ _ _ _ hk]
    exact h

theorem alookup_isSome_of_mem_keys {α : Type} (m : List (String × α)) (k : String)
    (h : k ∈ m.map Prod.fst) : (alookup m k).isSome := by
  induction m with
  | nil => simp at h
  | cons h0 rest ih =>
    rcases List.mem_cons.1 h with h1 | h1
    · simp [alookup, h1.symm]
    · by_cases hk : h0.1 = k
      · simp [alookup, hk]
      · simp [alookup, hk, ih h1]

theorem selKey_inj_right (a f1 f2 : String) (h : selKey a f1 = selKey a f2) : f1 = f2 := by
  have hd := congrArg String.data h
  simp only [selKey, string_data_append] at hd
  exact congrArg String.mk (List.append_cancel_left hd)

theorem maxStep_foldl_mem (ks : List String) (k : String) :
    ks.foldl maxStep k ∈ k :: ks := by
  induction ks generalizing k with
  | nil => simp
  | cons c cs ih =>
    have h := ih (maxStep k c)
    have hstep : maxStep k c = c ∨ maxStep k c = k := by
      unfold maxStep
      split
      · exact Or.inl rfl
      · exact Or.inr rfl
    rcases List.mem_cons.1 h with h1 | h1
    · rcases hstep with h2 | h2
      · rw [List.foldl_cons, h1, h2]
        simp
      · rw [List.foldl_cons, h1, h2]
        simp
    · simp [List.foldl_cons]
      right
      right
      exact h1

theorem maxStep_foldl_ge (ks : List String) (k : String) :
    ∀ c ∈ k :: ks, yearVal c ≤ yearVal (ks.foldl maxStep k) := by
  induction ks generalizing k with
  | nil =>
    intro c hc
    simp at hc
    simp [hc]
  | cons b bs ih =>
    intro c hc
    have hk : yearVal k ≤ yearVal (maxStep k b) := by
      unfold maxStep
      split <;> omega
    have hb : yearVal b ≤ yearVal (maxStep k b) := by
      unfold maxStep
      split <;> omega
    rw [List.foldl_cons]
    rcases List.mem_cons.1 hc with h1 | h1
    · rw [h1]
      exact le_trans hk (ih (maxStep k b) (maxStep k b) (List.mem_cons_self _ _))
    · rcases List.mem_cons.1 h1 with h2 | h2
      · rw [h2]
        exact le_trans hb (ih (maxStep k b) (maxStep k b) (List.mem_cons_self _ _))
      · exact ih (maxStep k b) c (List.mem_cons_of_mem _ h2)

theorem maxYearKey_spec (keys : List String) (hne : keys ≠ [])
    (hall : ∀ k ∈ keys, (pyInt k).isSome) :
    ∃ y, maxYearKey keys = some y ∧ y ∈ keys ∧ ∀ c ∈ keys, yearVal c ≤ yearVal y := by
  match keys, hne with
  | k :: ks, _ =>
    refine ⟨ks.foldl maxStep k, ?_, maxStep_foldl_mem ks k, maxStep_foldl_ge ks k⟩
    unfold maxYearKey
    rw [if_pos]
    exact List.all_eq_true.2 (fun x hx => hall x hx)

/-! ## Claim theorems -/

/-- C1: for every External Company Record whose `financials` map is
non-empty (with year keys, i.e. keys that parse as integers), a mapped
path `financials.latest.X` resolves through the key of numerically
greatest integer value — the latest year — returning that year's entry at
attribute X; if `financials` is empty or absent, it yields no value. -/
theorem c1 (sel : List (String × Person)) (account_id sf_field attr : String)
    (d : CompanyData) (hattr : '.' ∉ attr.data) :
    (d.financials = [] →
      resolve_value sel account_id sf_field d ("financials.latest." ++ attr) = none)
    ∧ (d.financials ≠ [] →
        (∀ k ∈ d.financials.map Prod.fst, (pyInt k).isSome) →
        ∃ y, maxYearKey (d.financials.map Prod.fst) = some y ∧
          y ∈ d.financials.map Prod.fst ∧
          (∀ k ∈ d.financials.map Prod.fst, yearVal k ≤ yearVal y) ∧
          resolve_value sel account_id sf_field d ("financials.latest." ++ attr) =
            (alookup d.financials y).bind (fun yd => alookup yd attr)) := by
  have hsplit : splitPath ("financials.latest." ++ attr) =
      some ("financials", "latest." ++ attr) := by
    rw [show "financials.latest." ++ attr = "financials" ++ "." ++ ("latest." ++ attr) from rfl]
    exact splitPath_append _ _ (by decide)
  constructor
  · intro hfin
    unfold resolve_value
    rw [hsplit]
    dsimp only
    rw [if_neg (by decide), if_neg (by decide), if_pos rfl,
        if_pos (strStartsWith_append ("latest." : String) attr), hfin]
    rfl
  · intro hne hall
    obtain ⟨y, hy, hymem, hymax⟩ :=
      maxYearKey_spec (d.financials.map Prod.fst) (by simpa using hne) hall
    refine ⟨y, hy, hymem, hymax, ?_⟩
    have hIE : d.financials.isEmpty = false := by
      cases hfl : d.financials with
      | nil => exact absurd hfl hne
      | cons a l => rfl
    obtain ⟨yd, hyd⟩ := Option.isSome_iff_exists.1 (alookup_isSome_of_mem_keys d.financials y hymem)
    unfold resolve_value
    rw [hsplit]
    dsimp only
    rw [if_neg (by decide), if_neg (by decide), if_pos rfl,
        if_pos (strStartsWith_append ("latest." : String) attr)]
    rw [if_neg (show ¬(d.financials.isEmpty = true) from by
      rw [hIE]; exact Bool.false_ne_true)]
    rw [hy]
    dsimp only
    rw [hyd]
    rw [show secondTok ("latest." ++ attr) = attr from by
      rw [show "latest." ++ attr = "latest" ++ "." ++ attr from rfl]
      exact secondTok_append _ _ (by decide) hattr]
    rfl

/-- Witness for C1: with years 2021, 2023, 2022 stored in that (scrambled)
order, the resolver uses the entry of year "2023". -/
theorem c1_witness :
    resolve_value [] "001" "AnnualRevenue" sampleCompany ("financials.latest." ++ "turnover") =
      (alookup sampleCompany.financials "2023").bind (fun yd => alookup yd "turnover") := by
  obtain ⟨y, hy, hmem, hmax, heq⟩ :=
    (c1 [] "001" "AnnualRevenue" "turnover" sampleCompany (by decide)).2
      (by decide) (by decide)
  have h23 : maxYearKey (sampleCompany.financials.map Prod.fst) = some "2023" := by decide
  rw [h23] at hy
  cases hy
  exact heq

/-- C3: a mapped `people.ceo.<attr>` path resolves by reading `<attr>`
from the Person Selection stored under this `(record_id, destination_field)`
pair: the result never depends on the record's data (no re-scan of the
people list at resolution time), is no value when no selection exists,
and the selection state of a different destination field for the same
record never affects it. -/
theorem c3 (sel : List (String × Person)) (account_id sf_field attr : String)
    (d d2 : CompanyData) (hattr : '.' ∉ attr.data) :
    (resolve_value sel account_id sf_field d ("people.ceo." ++ attr) =
      (alookup sel (selKey account_id sf_field)).bind (fun p => p.get attr))
    ∧ (resolve_value sel account_id sf_field d ("people.ceo." ++ attr) =
        resolve_value sel account_id sf_field d2 ("people.ceo." ++ attr))
    ∧ (alookup sel (selKey account_id sf_field) = none →
        resolve_value sel account_id sf_field d ("people.ceo." ++ attr) = none)
    ∧ (∀ (f2 : String) (p : Person), sf_field ≠ f2 →
        resolve_value (setKey sel (selKey account_id f2) p) account_id sf_field d
            ("people.ceo." ++ attr) =
          resolve_value sel account_id sf_field d ("people.ceo." ++ attr)) := by
  have hsplit : splitPath ("people.ceo." ++ attr) = some ("people", "ceo." ++ attr) := by
    rw [show "people.ceo." ++ attr = "people" ++ "." ++ ("ceo." ++ attr) from rfl]
    exact splitPath_append _ _ (by decide)
  have hcount : ("ceo." ++ attr) ≠ "count" := by
    intro h
    have h3 : 'c' :: 'e' :: 'o' :: '.' :: attr.data = ['c', 'o', 'u', 'n', 't'] :=
      congrArg String.data h
    injection h3 with ha hb
    injection hb with hc hd
    exact absurd hc (by decide)
  have hattr2 : secondTok ("ceo." ++ attr) = attr := by
    rw [show "ceo." ++ attr = "ceo" ++ "." ++ attr from rfl]
    exact secondTok_append _ _ (by decide) hattr
  have hmain : ∀ (s : List (String × Person)) (dd : CompanyData),
      resolve_value s account_id sf_field dd ("people.ceo." ++ attr) =
        (alookup s (selKey account_id sf_field)).bind (fun p => p.get attr) := by
    intro s dd
    unfold resolve_value
    rw [hsplit]
    dsimp only
    rw [if_pos rfl, if_neg hcount,
        if_pos (strStartsWith_append ("ceo." : String) attr), hattr2]
    cases alookup s (selKey account_id sf_field) <;> rfl
  refine ⟨hmain sel d, (hmain sel d).trans (hmain sel d2).symm, ?_, ?_⟩
  · intro hnone
    rw [hmain sel d, hnone]
    rfl
  · intro f2 p hne
    rw [hmain _ d, hmain sel d,
        alookup_setKey_ne sel (selKey account_id f2) (selKey account_id sf_field) p
          (fun h => hne (selKey_inj_right account_id sf_field f2 h))]

/-- Witness for C3: with a selection stored for `(001, Yhteyshenkilo__c)`,
the resolver returns the stored person's name; storing a selection for a
different destination field of the same record leaves it unchanged. -/
theorem c3_witness :
    resolve_value [("001_Yhteyshenkilo__c", (⟨"Bob", "Toimitusjohtaja", []⟩ : Person))]
        "001" "Yhteyshenkilo__c" sampleCompany ("people.ceo." ++ "fullName") =
      (alookup [("001_Yhteyshenkilo__c", (⟨"Bob", "Toimitusjohtaja", []⟩ : Person))]
        (selKey "001" "Yhteyshenkilo__c")).bind (fun p => p.get "fullName") :=
  (c3 [("001_Yhteyshenkilo__c", (⟨"Bob", "Toimitusjohtaja", []⟩ : Person))]
    "001" "Yhteyshenkilo__c" "fullName" sampleCompany sampleCompany (by decide)).1

/-- C4: `people.count` resolves to the number of entries of the `people`
list, 0 when it is empty or absent; this 0 is a real value, so a mapped,
in-scope destination field receives the value 0 in the Update Payload. -/
theorem c4 (sel : List (String × Person)) (account_id sf_field : String) (d : CompanyData)
    (field_mappings : List (String × String)) (selected_fields : List String) :
    (resolve_value sel account_id sf_field d "people.count" =
      some (.int (d.people.length : Int)))
    ∧ (d.people = [] →
        resolve_value sel account_id sf_field d "people.count" = some (.int 0))
    ∧ (sf_field ∈ selected_fields → (sf_field, "people.count") ∈ field_mappings →
        d.people = [] →
        (sf_field, PVal.int 0) ∈
          build_update_data field_mappings selected_fields sel account_id d) := by
  have hres : resolve_value sel account_id sf_field d "people.count" =
      some (.int (d.people.length : Int)) := by
    unfold resolve_value
    rw [show splitPath "people.count" = some ("people", "count") from rfl]
    dsimp only
    rw [if_pos rfl, if_pos rfl]
  refine ⟨hres, ?_, ?_⟩
  · intro hp
    rw [hres, hp]
    rfl
  · intro hsel hmap hp
    refine List.mem_filterMap.2 ⟨(sf_field, "people.count"), hmap, ?_⟩
    rw [if_pos hsel]
    dsimp only
    rw [hres, hp]
    rfl

/-- Witness for C4: a record with an empty people list makes a mapped
`NumberOfEmployees` field appear in the payload with value 0. -/
theorem c4_witness :
    ("NumberOfEmployees", PVal.int 0) ∈
      build_update_data [("NumberOfEmployees", "people.count")] ["NumberOfEmployees"] []
        "001" ⟨true, [], [], [], [], []⟩ :=
  (c4 [] "001" "NumberOfEmployees" ⟨true, [], [], [], [], []⟩
    [("NumberOfEmployees", "people.count")] ["NumberOfEmployees"]).2.2
    (by decide) (by decide) rfl

/-- C2: a mapped, in-scope destination field appears in the Update
Payload iff its resolved value is not `None`; a path with no dot, an
unrecognised category, or an unrecognised remainder for any recognised
category (a `people` rest other than `count`/`ceo.*`, or a
`financials`/`offices`/`eAddresses` rest without its expected
`latest.`/`first.` prefix) silently yields no value (the field is
skipped, never an error); an explicit empty-string value from the
provider is a real value and is included. -/
theorem c2 (field_mappings : List (String × String)) (selected_fields : List String)
    (sel : List (String × Person)) (account_id : String) (d : CompanyData) (f : String) :
    ((∃ v, (f, v) ∈ build_update_data field_mappings selected_fields sel account_id d) ↔
      (f ∈ selected_fields ∧ ∃ p, (f, p) ∈ field_mappings ∧
        resolve_value sel account_id f d p ≠ none))
    ∧ (∀ p : String, '.' ∉ p.data → resolve_value sel account_id f d p = none)
    ∧ (∀ p cat rest : String, splitPath p = some (cat, rest) →
        cat ≠ "people" → cat ≠ "basic" → cat ≠ "financials" → cat ≠ "offices" →
        cat ≠ "eAddresses" → resolve_value sel account_id f d p = none)
    ∧ (∀ p rest : String, splitPath p = some ("people", rest) →
        rest ≠ "count" → strStartsWith rest "ceo." = false →
        resolve_value sel account_id f d p = none)
    ∧ (∀ p rest : String, splitPath p = some ("financials", rest) →
        strStartsWith rest "latest." = false →
        resolve_value sel account_id f d p = none)
    ∧ (∀ p rest : String, splitPath p = some ("offices", rest) →
        strStartsWith rest "first." = false →
        resolve_value sel account_id f d p = none)
    ∧ (∀ p rest : String, splitPath p = some ("eAddresses", rest) →
        strStartsWith rest "first." = false →
        resolve_value sel account_id f d p = none)
    ∧ (∀ p : String, f ∈ selected_fields → (f, p) ∈ field_mappings →
        resolve_value sel account_id f d p = some (.str "") →
        (f, PVal.str "") ∈ build_update_data field_mappings selected_fields sel account_id d) := by
  refine ⟨⟨?_, ?_⟩, ?_, ?_, ?_, ?_, ?_, ?_, ?_⟩
  · rintro ⟨v, hv⟩
    obtain ⟨m, hm, hsome⟩ := List.mem_filterMap.1 hv
    obtain ⟨m1, m2⟩ := m
    by_cases hmf : m1 ∈ selected_fields
    · rw [if_pos hmf] at hsome
      obtain ⟨a, ha, hav⟩ := Option.map_eq_some'.1 hsome
      have hfst : m1 = f := congrArg Prod.fst hav
      subst hfst
      exact ⟨hmf, m2, hm, by rw [ha]; exact Option.some_ne_none a⟩
    · rw [if_neg hmf] at hsome
      exact absurd hsome (Option.noConfusion)
  · rintro ⟨hf, p, hp, hres⟩
    obtain ⟨v, hv⟩ := Option.ne_none_iff_exists'.1 hres
    refine ⟨v, List.mem_filterMap.2 ⟨(f, p), hp, ?_⟩⟩
    rw [if_pos hf]
    dsimp only
    rw [hv]
    rfl
  · intro p hp
    unfold resolve_value
    rw [splitPath_none p hp]
  · intro p cat rest hsplit h1 h2 h3 h4 h5
    unfold resolve_value
    rw [hsplit]
    dsimp only
    rw [if_neg h1, if_neg h2, if_neg h3, if_neg h4, if_neg h5]
  · intro p rest hsplit hc hceo
    unfold resolve_value
    rw [hsplit]
    dsimp only
    rw [if_pos rfl, if_neg hc,
      if_neg (show ¬(strStartsWith rest "ceo." = true) from by
        rw [hceo]; exact Bool.false_ne_true)]
  · intro p rest hsplit hlat
    unfold resolve_value
    rw [hsplit]
    dsimp only
    rw [if_neg (by decide), if_neg (by decide), if_pos rfl,
      if_neg (show ¬(strStartsWith rest "latest." = true) from by
        rw [hlat]; exact Bool.false_ne_true)]
  · intro p rest hsplit hfst
    unfold resolve_value
    rw [hsplit]
    dsimp only
    rw [if_neg (by decide), if_neg (by decide), if_neg (by decide), if_pos rfl,
      if_neg (show ¬(strStartsWith rest "first." = true) from by
        rw [hfst]; exact Bool.false_ne_true)]
  · intro p rest hsplit hfst
    unfold resolve_value
    rw [hsplit]
    dsimp only
    rw [if_neg (by decide), if_neg (by decide), if_neg (by decide), if_neg (by decide),
      if_pos rfl,
      if_neg (show ¬(strStartsWith rest "first." = true) from by
        rw [hfst]; exact Bool.false_ne_true)]
  · intro p hf hp hres
    refine List.mem_filterMap.2 ⟨(f, p), hp, ?_⟩
    rw [if_pos hf]
    dsimp only
    rw [hres]
    rfl

/-- Witness for C2: the provider's explicitly blank email is written to
the payload as an empty string. -/
theorem c2_witness :
    ("Email__c", PVal.str "") ∈
      build_update_data [("Email__c", "basic.email")] ["Email__c"] [] "001" sampleCompany :=
  (c2 [("Email__c", "basic.email")] ["Email__c"] [] "001" sampleCompany
    "Email__c").2.2.2.2.2.2.2
    "basic.email" (by decide) (by decide) (by decide)

/-- C5: whenever the people list contains an entry titled
"toimitusjohtaja" case-insensitively — even as its last element — the
person selector auto-selects such an entry, stores it under the
`(record, field)` key, reports the selection complete and sets the
apply-button flag, all independently of any operator input. -/
theorem c5 (sel : List (String × Person)) (btn : Bool) (account_id sf_field : String)
    (people : List Person) (pick : Nat)
    (h : ∃ p ∈ people, strLower p.title = "toimitusjohtaja") :
    ((show_person_selector sel btn account_id sf_field people pick).2.2 = true)
    ∧ ((show_person_selector sel btn account_id sf_field people pick).2.1 = true)
    ∧ (∃ q, alookup (show_person_selector sel btn account_id sf_field people pick).1
          (selKey account_id sf_field) = some q ∧ q ∈ people ∧
          strLower q.title = "toimitusjohtaja")
    ∧ (∀ pick2 : Nat, show_person_selector sel btn account_id sf_field people pick2 =
        show_person_selector sel btn account_id sf_field people pick) := by
  obtain ⟨p, hmem, hp⟩ := h
  have hfind : (find_ceo people).isSome := by
    unfold find_ceo
    rw [List.find?_isSome]
    exact ⟨p, hmem, by simp [hp]⟩
  obtain ⟨q, hq⟩ := Option.isSome_iff_exists.1 hfind
  have hqmem : q ∈ people := List.mem_of_find?_eq_some hq
  have hqtitle : strLower q.title = "toimitusjohtaja" := by
    have := List.find?_some hq
    simpa using this
  have hexp : ∀ pk : Nat, show_person_selector sel btn account_id sf_field people pk =
      (setKey sel (selKey account_id sf_field) q, true, true) := by
    intro pk
    unfold show_person_selector
    rw [hq]
  refine ⟨by rw [hexp pick], by rw [hexp pick], ⟨q, ?_, hqmem, hqtitle⟩,
    fun pick2 => by rw [hexp pick2, hexp pick]⟩
  rw [hexp pick]
  exact alookup_setKey_self sel (selKey account_id sf_field) q

/-- Witness for C5: the CEO-titled person listed last (with an uppercase
initial in the title) is auto-selected with no operator input. -/
theorem c5_witness :
    (show_person_selector [] false "001" "Yhteyshenkilo__c"
      [⟨"Alice", "CFO", []⟩, ⟨"Bob", "Toimitusjohtaja", []⟩] 0).2.2 = true :=
  (c5 [] false "001" "Yhteyshenkilo__c"
    [⟨"Alice", "CFO", []⟩, ⟨"Bob", "Toimitusjohtaja", []⟩] 0 (by decide)).1

/-- C6: the Missing-Data Selector emits exactly the records with at
least one absent/blank field of interest, each as the tuple
`(Id, Name, VatNumber__c, missing field names)`; records with every
field of interest present are excluded, and an empty Fields of Interest
set produces the empty output. -/
theorem c6 (selected_fields : List String) (records : List QueryRecord) :
    (selected_fields = [] → fetch_accounts_with_missing_data selected_fields records = [])
    ∧ (∀ e : MissingEntry, e ∈ fetch_accounts_with_missing_data selected_fields records ↔
        ∃ r ∈ records, missingFields selected_fields r ≠ [] ∧
          e = ⟨r.id, (r.getA "Name").getD (.str ""), (r.getA "VatNumber__c").getD (.str ""),
               missingFields selected_fields r⟩) := by
  constructor
  · intro hf
    subst hf
    rfl
  · intro e
    unfold fetch_accounts_with_missing_data
    by_cases hf : selected_fields.isEmpty
    · rw [if_pos hf]
      have hnil : selected_fields = [] := List.isEmpty_iff.1 hf
      constructor
      · intro he
        exact absurd he (List.not_mem_nil e)
      · rintro ⟨r, hr, hmiss, he⟩
        rw [hnil] at hmiss
        exact absurd rfl hmiss
    · rw [if_neg hf]
      rw [List.mem_filterMap]
      constructor
      · rintro ⟨r, hr, hsome⟩
        by_cases hm : (missingFields selected_fields r).isEmpty
        · rw [if_pos hm] at hsome
          exact absurd hsome (Option.noConfusion)
        · rw [if_neg hm] at hsome
          injection hsome with he
          exact ⟨r, hr, fun hnil => hm (by rw [hnil]; rfl), he.symm⟩
      · rintro ⟨r, hr, hmiss, he⟩
        refine ⟨r, hr, ?_⟩
        rw [if_neg (fun hIE => hmiss (List.isEmpty_iff.1 hIE))]
        rw [he]

/-- Witness for C6: with no fields of interest the selector returns the
empty list even though a record is present. -/
theorem c6_witness :
    fetch_accounts_with_missing_data [] [⟨"001", [("Name", .str "Acme")]⟩] = [] :=
  (c6 [] [⟨"001", [("Name", .str "Acme")]⟩]).1 rfl

/-- C8: after the apply pass has processed all records of the session —
whatever the write outcomes `updOk` reports — the session state is
cleared unconditionally: fetch cache, person selections, apply-button
flag, session record list, and the started flag all reset. -/
theorem c8 (sfGet : String → SFAccount) (updOk : String → List (String × PVal) → Bool)
    (field_mappings : List (String × String)) (selected_fields : List String)
    (st : SessionState) :
    ((applyPass sfGet updOk field_mappings selected_fields st).1.enrichment_started = false)
    ∧ ((applyPass sfGet updOk field_mappings selected_fields st).1.person_selection_state = [])
    ∧ ((applyPass sfGet updOk field_mappings selected_fields st).1.selected_people = [])
    ∧ ((applyPass sfGet updOk field_mappings selected_fields st).1.show_apply_button = false)
    ∧ ((applyPass sfGet updOk field_mappings selected_fields st).1.selected_accounts = []) :=
  ⟨rfl, rfl, rfl, rfl, rfl⟩

/-- C9: the explicit cancel action returns the machine to Idle
(`enrichment_in_progress` false), discards the cached fetches and the
person selections, and performs no CRM write and produces no log entry. -/
theorem c9 (s : AppState) :
    ((cancel_enrichment s).1.enrichment_in_progress = false)
    ∧ ((cancel_enrichment s).1.person_selection_state = [])
    ∧ ((cancel_enrichment s).1.selected_people = [])
    ∧ ((cancel_enrichment s).1.show_apply_button = false)
    ∧ ((cancel_enrichment s).2.1 = [])
    ∧ ((cancel_enrichment s).2.2 = []) :=
  ⟨rfl, rfl, rfl, rfl, rfl, rfl⟩

/-- C10: the Missing-Data Selector treats any falsy attribute value as
missing — a field of interest equal to 0, the empty string, or False
counts as missing exactly like an absent field, so a record whose
numeric field of interest holds 0 is always selected for enrichment. -/
theorem c10 (selected_fields : List String) (records : List QueryRecord)
    (r : QueryRecord) (f : String) (hr : r ∈ records) (hf : f ∈ selected_fields)
    (hv : r.getA f = none ∨ r.getA f = some (.int 0) ∨ r.getA f = some (.str "") ∨
        r.getA f = some (.bool false)) :
    f ∈ missingFields selected_fields r ∧
    (⟨r.id, (r.getA "Name").getD (.str ""), (r.getA "VatNumber__c").getD (.str ""),
      missingFields selected_fields r⟩ : MissingEntry) ∈
      fetch_accounts_with_missing_data selected_fields records := by
  have hfalsy : optTruthy (r.getA f) = false := by
    rcases hv with h | h | h | h <;> rw [h] <;> rfl
  have hmem : f ∈ missingFields selected_fields r := by
    unfold missingFields
    rw [List.mem_filter]
    refine ⟨hf, ?_⟩
    rw [hfalsy]
    rfl
  refine ⟨hmem, ?_⟩
  have hne : ¬(selected_fields.isEmpty = true) := by
    intro hIE
    rw [List.isEmpty_iff.1 hIE] at hf
    exact absurd hf (List.not_mem_nil f)
  unfold fetch_accounts_with_missing_data
  rw [if_neg hne]
  refine List.mem_filterMap.2 ⟨r, hr, ?_⟩
  have hmne : ¬((missingFields selected_fields r).isEmpty = true) := by
    intro hIE
    rw [List.isEmpty_iff.1 hIE] at hmem
    exact absurd hmem (List.not_mem_nil f)
  rw [if_neg hmne]

/-- Witness for C10: a record whose `NumberOfEmployees` legitimately
holds 0 is selected, with that field reported missing. -/
theorem c10_witness :
    (⟨"001", PVal.str "", PVal.str "", ["NumberOfEmployees"]⟩ : MissingEntry) ∈
      fetch_accounts_with_missing_data ["NumberOfEmployees"]
        [⟨"001", [("NumberOfEmployees", .int 0)]⟩] :=
  (c10 ["NumberOfEmployees"] [⟨"001", [("NumberOfEmployees", .int 0)]⟩]
    ⟨"001", [("NumberOfEmployees", .int 0)]⟩ "NumberOfEmployees"
    (by decide) (by decide) (Or.inr (Or.inl rfl))).2

theorem sps_components (sel : List (String × Person)) (btn : Bool) (aid f : String)
    (people : List Person) (pick : Nat) :
    ((show_person_selector sel btn aid f people pick).2.2 = selectorMade people pick)
    ∧ ((show_person_selector sel btn aid f people pick).2.1 =
        (btn || selectorMade people pick))
    ∧ (∀ k, (alookup sel k).isSome →
        (alookup (show_person_selector sel btn aid f people pick).1 k).isSome)
    ∧ (selectorMade people pick = true →
        (alookup (show_person_selector sel btn aid f people pick).1 (selKey aid f)).isSome) := by
  unfold show_person_selector selectorMade
  cases hc : find_ceo people with
  | some ceo =>
    refine ⟨rfl, by simp, fun k hk => alookup_setKey_isSome _ _ _ _ hk, fun _ => ?_⟩
    dsimp only
    rw [alookup_setKey_self]
    rfl
  | none =>
    dsimp only
    cases hn : (people.map (fun p => p.fullName)).get? pick with
    | none =>
      exact ⟨rfl, by simp, fun k hk => hk, fun h => absurd h (by simp)⟩
    | some nm =>
      dsimp only
      by_cases he : nm = ""
      · refine ⟨by rw [if_pos he, if_pos he], by rw [if_pos he, if_pos he]; simp,
          fun k hk => by rw [if_pos he]; exact hk, fun h => ?_⟩
        rw [if_pos he] at h
        exact Bool.noConfusion h
      · rw [if_neg he]
        cases hf : people.find? (fun p => p.fullName == nm) with
        | some person =>
          refine ⟨by simp [he], by simp [he, hf], fun k hk => ?_, fun _ => ?_⟩
          · exact alookup_setKey_isSome _ _ _ _ hk
          · rw [alookup_setKey_self]
            rfl
        | none =>
          exact ⟨by simp [he], by simp [he, hf], fun k hk => hk,
            fun h => by simp [he, hf] at h⟩

theorem fieldLoop_spec (selected_fields : List String) (picks : String → Nat) (aid : String)
    (people : List Person) :
    ∀ (mappings : List (String × String)) (s : PassState),
      ((mappings.foldl (fieldStep selected_fields picks aid people) s).pss = s.pss)
      ∧ ((mappings.foldl (fieldStep selected_fields picks aid people) s).logs = s.logs)
      ∧ ((mappings.foldl (fieldStep selected_fields picks aid people) s).needed =
          (s.needed || !(ceoFields mappings selected_fields).isEmpty))
      ∧ ((mappings.foldl (fieldStep selected_fields picks aid people) s).allComplete =
          (s.allComplete && (ceoFields mappings selected_fields).all
            (fun f => selectorMade people (picks (selKey aid f)))))
      ∧ ((mappings.foldl (fieldStep selected_fields picks aid people) s).btn =
          (s.btn || (ceoFields mappings selected_fields).any
            (fun f => selectorMade people (picks (selKey aid f)))))
      ∧ (∀ k, (alookup s.sel k).isSome →
          (alookup (mappings.foldl (fieldStep selected_fields picks aid people) s).sel k).isSome)
      ∧ (∀ f ∈ ceoFields mappings selected_fields,
          selectorMade people (picks (selKey aid f)) = true →
          (alookup (mappings.foldl (fieldStep selected_fields picks aid people) s).sel
            (selKey aid f)).isSome) := by
  intro mappings
  induction mappings with
  | nil =>
    intro s
    refine ⟨rfl, rfl, by simp [ceoFields], by simp [ceoFields], by simp [ceoFields],
      fun k hk => hk, fun f hf => ?_⟩
    simp [ceoFields] at hf
  | cons m rest ih =>
    intro s
    rw [List.foldl_cons]
    by_cases h1 : m.1 ∈ selected_fields
    · cases hs : splitPath m.2 with
      | none =>
        have hstep : fieldStep selected_fields picks aid people s m = s := by
          unfold fieldStep
          rw [if_pos h1, hs]
        have hceo : ceoFields (m :: rest) selected_fields = ceoFields rest selected_fields := by
          unfold ceoFields
          rw [List.filterMap_cons]
          rw [if_pos h1, hs]
        rw [hstep, hceo]
        exact ih s
      | some parts =>
        by_cases h2 : (parts.1 = "people" && strStartsWith parts.2 "ceo.") = true
        · have hstep : fieldStep selected_fields picks aid people s m =
              { s with
                sel := (show_person_selector s.sel s.btn aid m.1 people
                  (picks (selKey aid m.1))).1,
                btn := (show_person_selector s.sel s.btn aid m.1 people
                  (picks (selKey aid m.1))).2.1,
                needed := true,
                allComplete := s.allComplete && (show_person_selector s.sel s.btn aid m.1 people
                  (picks (selKey aid m.1))).2.2 } := by
            unfold fieldStep
            rw [if_pos h1, hs]
            dsimp only
            rw [if_pos h2]
          have hceo : ceoFields (m :: rest) selected_fields =
              m.1 :: ceoFields rest selected_fields := by
            unfold ceoFields
            rw [List.filterMap_cons]
            rw [if_pos h1, hs]
            dsimp only
            rw [if_pos h2]
          obtain ⟨hm, hb, hmono, hset⟩ :=
            sps_components s.sel s.btn aid m.1 people (picks (selKey aid m.1))
          rw [hstep, hceo]
          obtain ⟨ih1, ih2, ih3, ih4, ih5, ih6, ih7⟩ := ih { s with
            sel := (show_person_selector s.sel s.btn aid m.1 people
              (picks (selKey aid m.1))).1,
            btn := (show_person_selector s.sel s.btn aid m.1 people
              (picks (selKey aid m.1))).2.1,
            needed := true,
            allComplete := s.allComplete && (show_person_selector s.sel s.btn aid m.1 people
              (picks (selKey aid m.1))).2.2 }
          refine ⟨ih1, ih2, by simp [ih3], ?_, ?_, ?_, ?_⟩
          · rw [ih4]
            dsimp only
            rw [hm, List.all_cons, Bool.and_assoc]
          · rw [ih5]
            dsimp only
            rw [hb, List.any_cons, Bool.or_assoc]
          · intro k hk
            exact ih6 k (hmono k hk)
          · intro f hf hmade
            rcases List.mem_cons.1 hf with hf1 | hf1
            · subst hf1
              exact ih6 _ (hset hmade)
            · exact ih7 f hf1 hmade
        · have hstep : fieldStep selected_fields picks aid people s m = s := by
            unfold fieldStep
            rw [if_pos h1, hs]
            dsimp only
            rw [if_neg h2]
          have hceo : ceoFields (m :: rest) selected_fields = ceoFields rest selected_fields := by
            unfold ceoFields
            rw [List.filterMap_cons]
            rw [if_pos h1, hs]
            dsimp only
            rw [if_neg h2]
          rw [hstep, hceo]
          exact ih s
    · have hstep : fieldStep selected_fields picks aid people s m = s := by
        unfold fieldStep
        rw [if_neg h1]
      have hceo : ceoFields (m :: rest) selected_fields = ceoFields rest selected_fields := by
        unfold ceoFields
        rw [List.filterMap_cons]
        rw [if_neg h1]
      rw [hstep, hceo]
      exact ih s

theorem processAccount_spec (sfGet : String → SFAccount) (profind : String → Option CompanyData)
    (field_mappings : List (String × String)) (selected_fields : List String)
    (picks : String → Nat) (pss0 : List (String × FetchedEntry))
    (s : PassState) (aid : String)
    (hInv : PssInv pss0 sfGet profind s.pss) :
    PssInv pss0 sfGet profind
      (processAccount sfGet profind field_mappings selected_fields picks s aid).pss
    ∧ (∀ k, (alookup s.sel k).isSome →
        (alookup (processAccount sfGet profind field_mappings selected_fields picks s aid).sel
          k).isSome)
    ∧ ((processAccount sfGet profind field_mappings selected_fields picks s aid).needed =
        (s.needed || ((accountEntry pss0 sfGet profind aid).isSome &&
          !(ceoFields field_mappings selected_fields).isEmpty)))
    ∧ ((processAccount sfGet profind field_mappings selected_fields picks s aid).allComplete =
        (s.allComplete && madeAll pss0 sfGet profind field_mappings selected_fields picks aid))
    ∧ ((processAccount sfGet profind field_mappings selected_fields picks s aid).btn =
        (s.btn || madeAny pss0 sfGet profind field_mappings selected_fields picks aid))
    ∧ (∀ e, accountEntry pss0 sfGet profind aid = some e →
        ∀ f ∈ ceoFields field_mappings selected_fields,
          selectorMade e.people_data (picks (selKey aid f)) = true →
          (alookup (processAccount sfGet profind field_mappings selected_fields picks s aid).sel
            (selKey aid f)).isSome) := by
  cases hv : (sfGet aid).vat with
  | none =>
    have hae : accountEntry pss0 sfGet profind aid = none := by
      unfold accountEntry
      rw [hv]
    have hpa : processAccount sfGet profind field_mappings selected_fields picks s aid =
        { s with logs := s.logs ++
            ["No VAT number found for account " ++ (sfGet aid).name] } := by
      unfold processAccount
      rw [hv]
    refine ⟨?_, ?_, ?_, ?_, ?_, ?_⟩
    · rw [hpa]
      exact hInv
    · intro k hk
      rw [hpa]
      exact hk
    · rw [hpa, hae]
      simp
    · rw [hpa]
      simp [madeAll, hae]
    · rw [hpa]
      simp [madeAny, hae]
    · intro e he
      rw [hae] at he
      exact Option.noConfusion he
  | some v =>
    by_cases hv0 : v = ""
    · have hae : accountEntry pss0 sfGet profind aid = none := by
        unfold accountEntry
        rw [hv]
        dsimp only
        rw [if_pos hv0]
      have hpa : processAccount sfGet profind field_mappings selected_fields picks s aid =
          { s with logs := s.logs ++
              ["No VAT number found for account " ++ (sfGet aid).name] } := by
        unfold processAccount
        rw [hv]
        dsimp only
        rw [if_pos hv0]
      refine ⟨?_, ?_, ?_, ?_, ?_, ?_⟩
      · rw [hpa]
        exact hInv
      · intro k hk
        rw [hpa]
        exact hk
      · rw [hpa, hae]
        simp
      · rw [hpa]
        simp [madeAll, hae]
      · rw [hpa]
        simp [madeAny, hae]
      · intro e he
        rw [hae] at he
        exact Option.noConfusion he
    · cases hc : alookup s.pss aid with
      | some entry =>
        have hae : accountEntry pss0 sfGet profind aid = some entry := by
          rcases hInv aid with h | ⟨h0, h⟩
          · unfold accountEntry
            rw [hv]
            dsimp only
            rw [if_neg hv0, ← h, hc]
          · rw [hc] at h
            exact h.symm
        have hpa : processAccount sfGet profind field_mappings selected_fields picks s aid =
            field_mappings.foldl (fieldStep selected_fields picks aid entry.people_data) s := by
          unfold processAccount
          rw [hv]
          dsimp only
          rw [if_neg hv0, hc]
        obtain ⟨l1, l2, l3, l4, l5, l6, l7⟩ :=
          fieldLoop_spec selected_fields picks aid entry.people_data field_mappings s
        have hMadeAll : madeAll pss0 sfGet profind field_mappings selected_fields picks aid =
            (ceoFields field_mappings selected_fields).all
              (fun f => selectorMade entry.people_data (picks (selKey aid f))) := by
          unfold madeAll
          rw [hae]
        have hMadeAny : madeAny pss0 sfGet profind field_mappings selected_fields picks aid =
            (ceoFields field_mappings selected_fields).any
              (fun f => selectorMade entry.people_data (picks (selKey aid f))) := by
          unfold madeAny
          rw [hae]
        refine ⟨?_, ?_, ?_, ?_, ?_, ?_⟩
        · rw [hpa, l1]
          exact hInv
        · intro k hk
          rw [hpa]
          exact l6 k hk
        · rw [hpa, l3, hae]
          simp
        · rw [hpa, l4, hMadeAll]
        · rw [hpa, l5, hMadeAny]
        · intro e he f hf hmade
          rw [hae] at he
          injection he with he2
          rw [hpa]
          exact l7 f hf (by rw [he2]; exact hmade)
      | none =>
        have hp0 : alookup pss0 aid = none := by
          rcases hInv aid with h | ⟨h0, h⟩
          · rw [← h, hc]
          · exact h0
        cases hf : profind v with
        | none =>
          have hae : accountEntry pss0 sfGet profind aid = none := by
            unfold accountEntry
            rw [hv]
            dsimp only
            rw [if_neg hv0, hp0]
            dsimp only
            rw [hf]
          have hpa : processAccount sfGet profind field_mappings selected_fields picks s aid =
              { s with logs := s.logs ++
                  ["Failed to fetch data for account " ++ (sfGet aid).name] } := by
            unfold processAccount
            rw [hv]
            dsimp only
            rw [if_neg hv0, hc]
            dsimp only
            rw [hf]
          refine ⟨?_, ?_, ?_, ?_, ?_, ?_⟩
          · rw [hpa]
            exact hInv
          · intro k hk
            rw [hpa]
            exact hk
          · rw [hpa, hae]
            simp
          · rw [hpa]
            simp [madeAll, hae]
          · rw [hpa]
            simp [madeAny, hae]
          · intro e he
            rw [hae] at he
            exact Option.noConfusion he
        | some dd =>
          by_cases hsucc : dd.success = true
          · have hae : accountEntry pss0 sfGet profind aid =
                some ⟨dd.people, (sfGet aid).name, dd⟩ := by
              unfold accountEntry
              rw [hv]
              dsimp only
              rw [if_neg hv0, hp0]
              dsimp only
              rw [hf]
              dsimp only
              rw [if_pos hsucc]
            have hpa : processAccount sfGet profind field_mappings selected_fields picks s aid =
                field_mappings.foldl
                  (fieldStep selected_fields picks aid dd.people)
                  { s with pss := setKey s.pss aid ⟨dd.people, (sfGet aid).name, dd⟩ } := by
              unfold processAccount
              rw [hv]
              dsimp only
              rw [if_neg hv0, hc]
              dsimp only
              rw [hf]
              dsimp only
              rw [if_pos hsucc]
            obtain ⟨l1, l2, l3, l4, l5, l6, l7⟩ :=
              fieldLoop_spec selected_fields picks aid dd.people field_mappings
                { s with pss := setKey s.pss aid ⟨dd.people, (sfGet aid).name, dd⟩ }
            have hMadeAll : madeAll pss0 sfGet profind field_mappings selected_fields picks aid =
                (ceoFields field_mappings selected_fields).all
                  (fun f => selectorMade dd.people (picks (selKey aid f))) := by
              unfold madeAll
              rw [hae]
            have hMadeAny : madeAny pss0 sfGet profind field_mappings selected_fields picks aid =
                (ceoFields field_mappings selected_fields).any
                  (fun f => selectorMade dd.people (picks (selKey aid f))) := by
              unfold madeAny
              rw [hae]
            refine ⟨?_, ?_, ?_, ?_, ?_, ?_⟩
            · rw [hpa, l1]
              intro b
              by_cases hb : b = aid
              · subst hb
                right
                refine ⟨hp0, ?_⟩
                rw [alookup_setKey_self, hae]
              · rw [alookup_setKey_ne _ _ _ _ hb]
                exact hInv b
            · intro k hk
              rw [hpa]
              exact l6 k hk
            · rw [hpa, l3, hae]
              simp
            · rw [hpa, l4, hMadeAll]
            · rw [hpa, l5, hMadeAny]
            · intro e he f hf hmade
              rw [hae] at he
              injection he with he2
              rw [hpa]
              rw [← he2] at hmade
              exact l7 f hf hmade
          · have hae : accountEntry pss0 sfGet profind aid = none := by
              unfold accountEntry
              rw [hv]
              dsimp only
              rw [if_neg hv0, hp0]
              dsimp only
              rw [hf]
              dsimp only
              rw [if_neg hsucc]
            have hpa : processAccount sfGet profind field_mappings selected_fields picks s aid =
                { s with logs := s.logs ++
                    ["Failed to fetch data for account " ++ (sfGet aid).name] } := by
              unfold processAccount
              rw [hv]
              dsimp only
              rw [if_neg hv0, hc]
              dsimp only
              rw [hf]
              dsimp only
              rw [if_neg hsucc]
            refine ⟨?_, ?_, ?_, ?_, ?_, ?_⟩
            · rw [hpa]
              exact hInv
            · intro k hk
              rw [hpa]
              exact hk
            · rw [hpa, hae]
              simp
            · rw [hpa]
              simp [madeAll, hae]
            · rw [hpa]
              simp [madeAny, hae]
            · intro e he
              rw [hae] at he
              exact Option.noConfusion he

theorem firstPassLoop_spec (sfGet : String → SFAccount) (profind : String → Option CompanyData)
    (field_mappings : List (String × String)) (selected_fields : List String)
    (picks : String → Nat) (pss0 : List (String × FetchedEntry)) :
    ∀ (accounts : List String) (s : PassState),
      PssInv pss0 sfGet profind s.pss →
      PssInv pss0 sfGet profind
        (accounts.foldl (processAccount sfGet profind field_mappings selected_fields picks) s).pss
      ∧ (∀ k, (alookup s.sel k).isSome →
          (alookup (accounts.foldl
            (processAccount sfGet profind field_mappings selected_fields picks) s).sel k).isSome)
      ∧ ((accounts.foldl
            (processAccount sfGet profind field_mappings selected_fields picks) s).needed =
          (s.needed || accounts.any (fun a =>
            (accountEntry pss0 sfGet profind a).isSome &&
              !(ceoFields field_mappings selected_fields).isEmpty)))
      ∧ ((accounts.foldl
            (processAccount sfGet profind field_mappings selected_fields picks) s).allComplete =
          (s.allComplete && accounts.all
            (madeAll pss0 sfGet profind field_mappings selected_fields picks)))
      ∧ ((accounts.foldl
            (processAccount sfGet profind field_mappings selected_fields picks) s).btn =
          (s.btn || accounts.any
            (madeAny pss0 sfGet profind field_mappings selected_fields picks)))
      ∧ (∀ a ∈ accounts, ∀ e, accountEntry pss0 sfGet profind a = some e →
          ∀ f ∈ ceoFields field_mappings selected_fields,
            selectorMade e.people_data (picks (selKey a f)) = true →
            (alookup (accounts.foldl
              (processAccount sfGet profind field_mappings selected_fields picks) s).sel
              (selKey a f)).isSome) := by
  intro accounts
  induction accounts with
  | nil =>
    intro s hInv
    refine ⟨hInv, fun k hk => hk, by simp, by simp, by simp, fun a ha => ?_⟩
    exact absurd ha (List.not_mem_nil a)
  | cons a rest ih =>
    intro s hInv
    rw [List.foldl_cons]
    obtain ⟨p1, p2, p3, p4, p5, p6⟩ :=
      processAccount_spec sfGet profind field_mappings selected_fields picks pss0 s a hInv
    obtain ⟨i1, i2, i3, i4, i5, i6⟩ :=
      ih (processAccount sfGet profind field_mappings selected_fields picks s a) p1
    refine ⟨i1, ?_, ?_, ?_, ?_, ?_⟩
    · intro k hk
      exact i2 k (p2 k hk)
    · rw [i3, p3, List.any_cons, Bool.or_assoc]
    · rw [i4, p4, List.all_cons, Bool.and_assoc]
    · rw [i5, p5, List.any_cons, Bool.or_assoc]
    · intro a2 ha2 e he f hf hmade
      rcases List.mem_cons.1 ha2 with ha3 | ha3
      · subst ha3
        exact i2 (selKey a2 f) (p6 e he f hf hmade)
      · exact i6 a2 ha3 e he f hf hmade

/-- C7: the Apply Enrichment action is never offered while some session
record that requires person disambiguation (fetched data plus a mapped,
in-scope `people.ceo.*` field) lacks a stored Person Selection for that
field after the pass; conversely, once every such record's selector
reports every needed selection complete — in particular when no record
needs disambiguation at all — the action is offered. -/
theorem c7 (sfGet : String → SFAccount) (profind : String → Option CompanyData)
    (field_mappings : List (String × String)) (selected_fields : List String)
    (picks : String → Nat) (st : SessionState) :
    (applyOffered (firstPass sfGet profind field_mappings selected_fields picks st) = true →
      ∀ a ∈ st.selected_accounts, ∀ f ∈ ceoFields field_mappings selected_fields,
        (accountEntry st.person_selection_state sfGet profind a).isSome = true →
        (alookup (firstPass sfGet profind field_mappings selected_fields picks st).sel
          (selKey a f)).isSome = true)
    ∧ ((∀ a ∈ st.selected_accounts,
          madeAll st.person_selection_state sfGet profind field_mappings selected_fields picks a
            = true) →
        applyOffered (firstPass sfGet profind field_mappings selected_fields picks st) = true) := by
  have hInv0 : PssInv st.person_selection_state sfGet profind
      ((⟨st.person_selection_state, st.selected_people, st.show_apply_button,
        false, true, []⟩ : PassState)).pss := fun a => Or.inl rfl
  obtain ⟨L1, L2, L3, L4, L5, L6⟩ :=
    firstPassLoop_spec sfGet profind field_mappings selected_fields picks
      st.person_selection_state st.selected_accounts
      ⟨st.person_selection_state, st.selected_people, st.show_apply_button, false, true, []⟩
      hInv0
  have hFP : firstPass sfGet profind field_mappings selected_fields picks st =
      st.selected_accounts.foldl
        (processAccount sfGet profind field_mappings selected_fields picks)
        ⟨st.person_selection_state, st.selected_people, st.show_apply_button,
          false, true, []⟩ := rfl
  rw [← hFP] at L3 L4 L5 L6
  constructor
  · intro hOff a ha f hf he
    obtain ⟨e, he2⟩ := Option.isSome_iff_exists.1 he
    unfold applyOffered at hOff
    cases hN : (firstPass sfGet profind field_mappings selected_fields picks st).needed with
    | false =>
      have hEf : (ceoFields field_mappings selected_fields).isEmpty = false := by
        cases hcf : ceoFields field_mappings selected_fields with
        | nil =>
          rw [hcf] at hf
          exact absurd hf (List.not_mem_nil f)
        | cons x xs => rfl
      have hTrue : ((accountEntry st.person_selection_state sfGet profind a).isSome &&
          !(ceoFields field_mappings selected_fields).isEmpty) = true := by
        rw [he2, hEf]
        rfl
      rw [L3] at hN
      simp only [Bool.false_or] at hN
      exact absurd (List.any_eq_true.2 ⟨a, ha, hTrue⟩) (by rw [hN]; simp)
    | true =>
      rw [hN] at hOff
      simp only [Bool.not_true, Bool.false_or, Bool.true_and, Bool.and_eq_true] at hOff
      obtain ⟨hAC, hBtn⟩ := hOff
      rw [L4] at hAC
      simp only [Bool.true_and] at hAC
      have hMa := List.all_eq_true.1 hAC a ha
      unfold madeAll at hMa
      rw [he2] at hMa
      have hmade := List.all_eq_true.1 hMa f hf
      exact L6 a ha e he2 f hf hmade
  · intro hall
    have hAC : (firstPass sfGet profind field_mappings selected_fields picks st).allComplete
        = true := by
      rw [L4]
      simp only [Bool.true_and]
      exact List.all_eq_true.2 hall
    unfold applyOffered
    cases hN : (firstPass sfGet profind field_mappings selected_fields picks st).needed with
    | false => simp
    | true =>
      rw [L3] at hN
      simp only [Bool.false_or] at hN
      obtain ⟨a, ha, hpa⟩ := List.any_eq_true.1 hN
      rw [Bool.and_eq_true] at hpa
      obtain ⟨hsome, hnemp⟩ := hpa
      obtain ⟨e, he2⟩ := Option.isSome_iff_exists.1 hsome
      have hcne : ceoFields field_mappings selected_fields ≠ [] := by
        intro h0
        rw [h0] at hnemp
        exact absurd hnemp (by simp)
      obtain ⟨f0, hf0⟩ := List.exists_mem_of_ne_nil _ hcne
      have hMa := hall a ha
      unfold madeAll at hMa
      rw [he2] at hMa
      have hmadef0 := List.all_eq_true.1 hMa f0 hf0
      have hAny : madeAny st.person_selection_state sfGet profind field_mappings
          selected_fields picks a = true := by
        unfold madeAny
        rw [he2]
        exact List.any_eq_true.2 ⟨f0, hf0, hmadef0⟩
      have hBtn : (firstPass sfGet profind field_mappings selected_fields picks st).btn
          = true := by
        rw [L5, List.any_eq_true.2 ⟨a, ha, hAny⟩]
        simp
      rw [hAC, hBtn]
      simp

/-- Witness for C7: a one-record session whose CEO is auto-detected has
all selections complete, so the Apply Enrichment action is offered. -/
theorem c7_witness :
    applyOffered (firstPass (fun _ => ⟨"Acme", some "FI123"⟩) (fun _ => some sampleCompany)
      [("Yhteyshenkilo__c", "people.ceo.fullName")] ["Yhteyshenkilo__c"] (fun _ => 0)
      ⟨true, [], [], false, ["001"]⟩) = true :=
  (c7 (fun _ => ⟨"Acme", some "FI123"⟩) (fun _ => some sampleCompany)
    [("Yhteyshenkilo__c", "people.ceo.fullName")] ["Yhteyshenkilo__c"] (fun _ => 0)
    ⟨true, [], [], false, ["001"]⟩).2 (by decide)

end SFE
